import Mathlib

/-!
Shallow embedding of `src/app1/models.py`: two Django models, `Customer`
and `Order`, persisted through the ORM.  The model declarations fix the
storage-layer semantics: `email` and `order_number` carry `unique=True`,
`Order.customer` is a `ForeignKey(Customer, on_delete=CASCADE,
related_name="orders")`, `date_joined` / `created_at` carry
`auto_now_add=True` (set once at insertion, excluded from updates), and
the `CharField` columns carry declared maximum lengths (100 for
`first_name` / `last_name`, 20 for `phone_number`, 254 for `email` --
Django's `EmailField` default -- and 50 for `order_number`).  The storage
engine rejects an insert or update violating one of these constraints and
leaves the stored state unchanged.

We model a database state as lists of rows plus the auto-increment
counters and a logical clock for the auto-populated timestamps, and each
ORM operation as a function on that state returning `Except` of the error
the storage layer surfaces.
-/

namespace DjangoORM

/-- Row of the `Customer` table (`src/app1/models.py` lines 3-15).
`id` is Django's implicit auto primary key; `phone_number` and `address`
carry `blank=True, null=True`, hence `Option`. -/
structure Customer where
  id : Nat
  first_name : String
  last_name : String
  email : String
  phone_number : Option String
  address : Option String
  date_joined : Nat
  deriving Repr, DecidableEq

/-- Row of the `Order` table (`src/app1/models.py` lines 17-27).
`customer` stores the foreign key: the `id` of the referenced Customer. -/
structure Order where
  id : Nat
  customer : Nat
  order_number : String
  created_at : Nat
  deriving Repr, DecidableEq

/-- `Customer.__str__`: the f-string `"{first_name} {last_name}"`. -/
def Customer.toStr (c : Customer) : String :=
  c.first_name ++ " " ++ c.last_name

/-- `Order.__str__`: returns `order_number`. -/
def Order.toStr (o : Order) : String :=
  o.order_number

/-- Errors surfaced by the storage layer. -/
inductive DBError where
  | uniquenessViolation
  | referentialIntegrityViolation
  | valueTooLong
  deriving Repr, DecidableEq

/-- The stored database state: the two tables, the auto-increment
counters for the implicit primary keys, and the clock supplying the
`auto_now_add` timestamps. -/
structure DB where
  customers : List Customer
  orders : List Order
  nextCustomerId : Nat
  nextOrderId : Nat
  now : Nat
  deriving Repr, DecidableEq

/-- The empty database; Django auto ids start at 1. -/
def initDB : DB := ⟨[], [], 1, 1, 0⟩

/-- Declared length bound of `phone_number` (`max_length=20`). -/
def phoneLenOk : Option String → Bool
  | none => true
  | some s => s.length ≤ 20

/-- Declared length bounds of the Customer text columns:
`first_name` / `last_name` have `max_length=100`, `email` is an
`EmailField` (default `max_length=254`). -/
def customerLengthsOk (f l : String) (p : Option String) (e : String) : Bool :=
  (f.length ≤ 100 : Bool) && (l.length ≤ 100 : Bool) && phoneLenOk p
    && (e.length ≤ 254 : Bool)

/-- INSERT into `Customer`: the column constraints are checked by the
storage engine (declared lengths, `unique=True` on `email`); on success
the row is stored with a fresh id and `date_joined` auto-populated from
the clock (`auto_now_add=True`). -/
def createCustomer (db : DB) (f l e : String) (p a : Option String) :
    Except DBError (DB × Customer) :=
  if customerLengthsOk f l p e then
    if db.customers.any (fun c => c.email = e) then
      .error .uniquenessViolation
    else
      let c : Customer := ⟨db.nextCustomerId, f, l, e, p, a, db.now⟩
      .ok ({ db with customers := c :: db.customers,
                     nextCustomerId := db.nextCustomerId + 1 }, c)
  else .error .valueTooLong

/-- INSERT into `Order`: declared length of `order_number`
(`max_length=50`), the foreign-key constraint on `customer`, and
`unique=True` on `order_number`; `created_at` auto-populated
(`auto_now_add=True`). -/
def createOrder (db : DB) (cid : Nat) (n : String) :
    Except DBError (DB × Order) :=
  if n.length ≤ 50 then
    if db.customers.any (fun c => c.id = cid) then
      if db.orders.any (fun o => o.order_number = n) then
        .error .uniquenessViolation
      else
        let o : Order := ⟨db.nextOrderId, cid, n, db.now⟩
        .ok ({ db with orders := o :: db.orders,
                       nextOrderId := db.nextOrderId + 1 }, o)
    else .error .referentialIntegrityViolation
  else .error .valueTooLong

/-- UPDATE of the Customer row with id `cid`: the editable fields are
replaced; `id` and the `auto_now_add` field `date_joined` are not
touched.  The storage engine re-checks the declared lengths and the
`email` uniqueness constraint against the other rows. -/
def updateCustomer (db : DB) (cid : Nat) (f l e : String) (p a : Option String) :
    Except DBError DB :=
  if customerLengthsOk f l p e then
    if db.customers.any (fun c => c.id ≠ cid ∧ c.email = e) then
      .error .uniquenessViolation
    else
      .ok { db with customers := db.customers.map (fun c =>
        if c.id = cid then
          { c with first_name := f, last_name := l, email := e,
                   phone_number := p, address := a }
        else c) }
  else .error .valueTooLong

/-- UPDATE of the Order row with id `oid`: the editable fields
(`customer`, `order_number`) are replaced; `id` and the `auto_now_add`
field `created_at` are not touched.  The storage engine re-checks the
declared length, the foreign-key constraint and the `order_number`
uniqueness constraint. -/
def updateOrder (db : DB) (oid cid : Nat) (n : String) :
    Except DBError DB :=
  if n.length ≤ 50 then
    if db.customers.any (fun c => c.id = cid) then
      if db.orders.any (fun o => o.id ≠ oid ∧ o.order_number = n) then
        .error .uniquenessViolation
      else
        .ok { db with orders := db.orders.map (fun o =>
          if o.id = oid then { o with customer := cid, order_number := n }
          else o) }
    else .error .referentialIntegrityViolation
  else .error .valueTooLong

/-- DELETE of the Customer row with id `cid`: `on_delete=CASCADE` on
`Order.customer` deletes every Order referencing it. -/
def deleteCustomer (db : DB) (cid : Nat) : DB :=
  { db with customers := db.customers.filter (fun c => c.id ≠ cid),
            orders := db.orders.filter (fun o => o.customer ≠ cid) }

/-- DELETE of the Order row with id `oid`. -/
def deleteOrder (db : DB) (oid : Nat) : DB :=
  { db with orders := db.orders.filter (fun o => o.id ≠ oid) }

/-- The clock advances between operations. -/
def tick (db : DB) : DB := { db with now := db.now + 1 }

/-- The stored state after a `createCustomer` call: the new state on
success, the untouched state when the storage layer rejected the insert. -/
def createCustomerState (db : DB) (f l e : String) (p a : Option String) : DB :=
  match createCustomer db f l e p a with
  | .ok (db', _) => db'
  | .error _ => db

/-- The stored state after a `createOrder` call. -/
def createOrderState (db : DB) (cid : Nat) (n : String) : DB :=
  match createOrder db cid n with
  | .ok (db', _) => db'
  | .error _ => db

/-- The stored state after an `updateCustomer` call. -/
def updateCustomerState (db : DB) (cid : Nat) (f l e : String)
    (p a : Option String) : DB :=
  match updateCustomer db cid f l e p a with
  | .ok db' => db'
  | .error _ => db

/-- The stored state after an `updateOrder` call. -/
def updateOrderState (db : DB) (oid cid : Nat) (n : String) : DB :=
  match updateOrder db oid cid n with
  | .ok db' => db'
  | .error _ => db

/-- The `related_name="orders"` reverse accessor: the Orders whose
`customer` foreign key is `cid`. -/
def DB.ordersOf (db : DB) (cid : Nat) : List Order :=
  db.orders.filter (fun o => o.customer = cid)

/-- The `unique=True` constraint on `Customer.email`: no two stored
Customers share an email. -/
def emailsUnique (db : DB) : Prop :=
  db.customers.Pairwise (fun a b => a.email ≠ b.email)

/-- The `unique=True` constraint on `Order.order_number`. -/
def orderNumbersUnique (db : DB) : Prop :=
  db.orders.Pairwise (fun a b => a.order_number ≠ b.order_number)

/-- The implicit auto primary key of `Customer`: stored ids are below
the counter and pairwise distinct. -/
def customerIdsOk (db : DB) : Prop :=
  (∀ c ∈ db.customers, c.id < db.nextCustomerId) ∧
    db.customers.Pairwise (fun a b => a.id ≠ b.id)

/-- The implicit auto primary key of `Order`. -/
def orderIdsOk (db : DB) : Prop :=
  (∀ o ∈ db.orders, o.id < db.nextOrderId) ∧
    db.orders.Pairwise (fun a b => a.id ≠ b.id)

/-- The foreign-key constraint: every stored Order references a stored
Customer. -/
def refIntact (db : DB) : Prop :=
  ∀ o ∈ db.orders, ∃ c ∈ db.customers, c.id = o.customer

/-- All storage-layer invariants together. -/
def Inv (db : DB) : Prop :=
  emailsUnique db ∧ orderNumbersUnique db ∧ customerIdsOk db ∧
    orderIdsOk db ∧ refIntact db

/-- The states reachable from the empty database through the ORM
operations (failed operations leave the state untouched, so only the
successful ones appear as steps). -/
inductive Reachable : DB → Prop where
  | init : Reachable initDB
  | stepCreateCustomer {db db' : DB} {f l e : String} {p a : Option String}
      {c : Customer} : Reachable db →
      createCustomer db f l e p a = .ok (db', c) → Reachable db'
  | stepCreateOrder {db db' : DB} {cid : Nat} {n : String} {o : Order} :
      Reachable db → createOrder db cid n = .ok (db', o) → Reachable db'
  | stepUpdateCustomer {db db' : DB} {cid : Nat} {f l e : String}
      {p a : Option String} : Reachable db →
      updateCustomer db cid f l e p a = .ok db' → Reachable db'
  | stepUpdateOrder {db db' : DB} {oid cid : Nat} {n : String} :
      Reachable db → updateOrder db oid cid n = .ok db' → Reachable db'
  | stepDeleteCustomer {db : DB} {cid : Nat} :
      Reachable db → Reachable (deleteCustomer db cid)
  | stepDeleteOrder {db : DB} {oid : Nat} :
      Reachable db → Reachable (deleteOrder db oid)
  | stepTick {db : DB} : Reachable db → Reachable (tick db)

/-- Concrete Customer row used in the examples below. -/
def cA : Customer := ⟨1, "Ada", "Lovelace", "ada@example.com", none, none, 0⟩

/-- State after inserting `cA` into the empty database. -/
def dbA : DB := ⟨[cA], [], 2, 1, 0⟩

/-- Concrete Order row referencing `cA`. -/
def oB : Order := ⟨1, 1, "ORD-1", 0⟩

/-- State after additionally inserting `oB`. -/
def dbB : DB := ⟨[cA], [oB], 2, 2, 0⟩

/-- Second concrete Customer row. -/
def cG : Customer := ⟨2, "Grace", "Hopper", "grace@example.com", none, none, 0⟩

/-- `dbB` after inserting `cG`. -/
def dbC : DB := ⟨[cG, cA], [oB], 3, 2, 0⟩

/-- Second concrete Order row. -/
def oD : Order := ⟨2, 1, "ORD-2", 0⟩

/-- `dbB` after inserting `oD`. -/
def dbD : DB := ⟨[cA], [oD, oB], 2, 3, 0⟩

/-- `dbB` after updating Customer 1's editable fields. -/
def dbE : DB := ⟨[⟨1, "Ada", "King", "ada@example.com", none, none, 0⟩], [oB], 2, 2, 0⟩

/-- `dbB` after updating Order 1's editable fields. -/
def dbF : DB := ⟨[cA], [⟨1, 1, "ORD-2", 0⟩], 2, 2, 0⟩

/-- A string of `k` copies of the character `a`. -/
def longStr (k : Nat) : String := String.mk (List.replicate k 'a')

theorem inv_init : Inv initDB := by
  refine ⟨List.Pairwise.nil, List.Pairwise.nil, ⟨?_, List.Pairwise.nil⟩,
    ⟨?_, List.Pairwise.nil⟩, ?_⟩ <;> intro x hx <;> exact absurd hx (by simp [initDB])

theorem inv_createCustomer {db db' : DB} {f l e : String} {p a : Option String}
    {c : Customer} (hInv : Inv db)
    (h : createCustomer db f l e p a = .ok (db', c)) : Inv db' := by
  obtain ⟨hEm, hNum, ⟨hCb, hCp⟩, hO, hRef⟩ := hInv
  unfold createCustomer at h
  split at h
  · split at h
    · exact absurd h (by simp)
    · rename_i hdup
      simp only [List.any_eq_true, decide_eq_true_eq, not_exists, not_and] at hdup
      simp only [Except.ok.injEq, Prod.mk.injEq] at h
      obtain ⟨rfl, rfl⟩ := h.symm.imp Eq.symm Eq.symm
      refine ⟨?_, hNum, ⟨?_, ?_⟩, hO, ?_⟩
      · exact List.pairwise_cons.mpr
          ⟨fun b hb hbe => hdup b hb hbe.symm, hEm⟩
      · intro x hx
        rcases List.mem_cons.mp hx with rfl | hx
        · simp
        · exact Nat.lt_succ_of_lt (hCb x hx)
      · exact List.pairwise_cons.mpr
          ⟨fun b hb => Nat.ne_of_gt (hCb b hb), hCp⟩
      · intro o ho
        obtain ⟨cw, hcw, hcid⟩ := hRef o ho
        exact ⟨cw, List.mem_cons_of_mem _ hcw, hcid⟩
  · exact absurd h (by simp)

theorem inv_createOrder {db db' : DB} {cid : Nat} {n : String} {o : Order}
    (hInv : Inv db) (h : createOrder db cid n = .ok (db', o)) : Inv db' := by
  obtain ⟨hEm, hNum, hC, ⟨hOb, hOp⟩, hRef⟩ := hInv
  unfold createOrder at h
  split at h
  · split at h
    · rename_i hcust
      simp only [List.any_eq_true, decide_eq_true_eq] at hcust
      split at h
      · exact absurd h (by simp)
      · rename_i hdup
        simp only [List.any_eq_true, decide_eq_true_eq, not_exists, not_and] at hdup
        simp only [Except.ok.injEq, Prod.mk.injEq] at h
        obtain ⟨rfl, rfl⟩ := h.symm.imp Eq.symm Eq.symm
        refine ⟨hEm, ?_, hC, ⟨?_, ?_⟩, ?_⟩
        · exact List.pairwise_cons.mpr
            ⟨fun b hb hbn => hdup b hb hbn.symm, hNum⟩
        · intro x hx
          rcases List.mem_cons.mp hx with rfl | hx
          · simp
          · exact Nat.lt_succ_of_lt (hOb x hx)
        · exact List.pairwise_cons.mpr
            ⟨fun b hb => Nat.ne_of_gt (hOb b hb), hOp⟩
        · intro x hx
          rcases List.mem_cons.mp hx with rfl | hx
          · obtain ⟨cw, hcw, hcid⟩ := hcust
            exact ⟨cw, hcw, hcid⟩
          · exact hRef x hx
    · exact absurd h (by simp)
  · exact absurd h (by simp)

theorem pairwise_email_update {l : List Customer} {cid : Nat} {f fl e : String}
    {p a : Option String}
    (hEm : l.Pairwise fun x y => x.email ≠ y.email)
    (hIds : l.Pairwise fun x y => x.id ≠ y.id)
    (hdup : ∀ c ∈ l, c.id ≠ cid → c.email ≠ e) :
    (l.map fun c => if c.id = cid then
        { c with first_name := f, last_name := fl, email := e,
                 phone_number := p, address := a }
      else c).Pairwise fun x y => x.email ≠ y.email := by
  rw [List.pairwise_map]
  refine (hEm.and hIds).imp_of_mem ?_
  intro x y hx hy hxy
  by_cases hxc : x.id = cid
  · have hyc : y.id ≠ cid := fun hyc => hxy.2 (hxc.trans hyc.symm)
    simp only [if_pos hxc, if_neg hyc]
    exact fun heq => hdup y hy hyc heq.symm
  · by_cases hyc : y.id = cid
    · simp only [if_neg hxc, if_pos hyc]
      exact fun heq => hdup x hx hxc heq
    · simp only [if_neg hxc, if_neg hyc]
      exact hxy.1

theorem pairwise_number_update {l : List Order} {oid cid : Nat} {n : String}
    (hNum : l.Pairwise fun x y => x.order_number ≠ y.order_number)
    (hIds : l.Pairwise fun x y => x.id ≠ y.id)
    (hdup : ∀ o ∈ l, o.id ≠ oid → o.order_number ≠ n) :
    (l.map fun o => if o.id = oid then { o with customer := cid, order_number := n }
      else o).Pairwise fun x y => x.order_number ≠ y.order_number := by
  rw [List.pairwise_map]
  refine (hNum.and hIds).imp_of_mem ?_
  intro x y hx hy hxy
  by_cases hxc : x.id = oid
  · have hyc : y.id ≠ oid := fun hyc => hxy.2 (hxc.trans hyc.symm)
    simp only [if_pos hxc, if_neg hyc]
    exact fun heq => hdup y hy hyc heq.symm
  · by_cases hyc : y.id = oid
    · simp only [if_neg hxc, if_pos hyc]
      exact fun heq => hdup x hx hxc heq
    · simp only [if_neg hxc, if_neg hyc]
      exact hxy.1

theorem inv_updateCustomer {db db' : DB} {cid : Nat} {f l e : String}
    {p a : Option String} (hInv : Inv db)
    (h : updateCustomer db cid f l e p a = .ok db') : Inv db' := by
  obtain ⟨hEm, hNum, ⟨hCb, hCp⟩, hO, hRef⟩ := hInv
  unfold updateCustomer at h
  split at h
  · split at h
    · exact absurd h (by simp)
    · rename_i hdup
      simp only [List.any_eq_true, decide_eq_true_eq, not_exists, not_and] at hdup
      simp only [Except.ok.injEq] at h
      subst h
      have hgid : ∀ c : Customer,
          ((if c.id = cid then
              { c with first_name := f, last_name := l, email := e,
                       phone_number := p, address := a }
            else c) : Customer).id = c.id := by
        intro c; by_cases hc : c.id = cid <;> simp [hc]
      refine ⟨?_, hNum, ⟨?_, ?_⟩, hO, ?_⟩
      · exact pairwise_email_update hEm hCp fun c hc hcne heq =>
          hdup c hc hcne heq
      · intro x hx
        obtain ⟨c, hc, rfl⟩ := List.mem_map.mp hx
        rw [hgid]
        exact hCb c hc
      · rw [List.pairwise_map]
        exact hCp.imp fun {x y} hxy => by rw [hgid, hgid]; exact hxy
      · intro o ho
        obtain ⟨cw, hcw, hcid⟩ := hRef o ho
        refine ⟨_, List.mem_map_of_mem _ hcw, ?_⟩
        rw [hgid]; exact hcid
  · exact absurd h (by simp)

theorem inv_updateOrder {db db' : DB} {oid cid : Nat} {n : String} (hInv : Inv db)
    (h : updateOrder db oid cid n = .ok db') : Inv db' := by
  obtain ⟨hEm, hNum, hC, ⟨hOb, hOp⟩, hRef⟩ := hInv
  unfold updateOrder at h
  split at h
  · split at h
    · rename_i hcust
      simp only [List.any_eq_true, decide_eq_true_eq] at hcust
      split at h
      · exact absurd h (by simp)
      · rename_i hdup
        simp only [List.any_eq_true, decide_eq_true_eq, not_exists, not_and] at hdup
        simp only [Except.ok.injEq] at h
        subst h
        have hgid : ∀ o : Order,
            ((if o.id = oid then { o with customer := cid, order_number := n }
              else o) : Order).id = o.id := by
          intro o; by_cases ho : o.id = oid <;> simp [ho]
        refine ⟨hEm, ?_, hC, ⟨?_, ?_⟩, ?_⟩
        · exact pairwise_number_update hNum hOp fun o ho hone heq =>
            hdup o ho hone heq
        · intro x hx
          obtain ⟨o, ho, rfl⟩ := List.mem_map.mp hx
          rw [hgid]
          exact hOb o ho
        · rw [List.pairwise_map]
          exact hOp.imp fun {x y} hxy => by rw [hgid, hgid]; exact hxy
        · intro x hx
          obtain ⟨o, ho, rfl⟩ := List.mem_map.mp hx
          by_cases hoid : o.id = oid
          · obtain ⟨cw, hcw, hcid⟩ := hcust
            refine ⟨cw, hcw, ?_⟩
            simp [hoid, hcid]
          · obtain ⟨cw, hcw, hcid⟩ := hRef o ho
            refine ⟨cw, hcw, ?_⟩
            simp [hoid, hcid]
    · exact absurd h (by simp)
  · exact absurd h (by simp)

theorem inv_deleteCustomer {db : DB} (cid : Nat) (hInv : Inv db) :
    Inv (deleteCustomer db cid) := by
  obtain ⟨hEm, hNum, ⟨hCb, hCp⟩, ⟨hOb, hOp⟩, hRef⟩ := hInv
  refine ⟨hEm.sublist (List.filter_sublist _),
    hNum.sublist (List.filter_sublist _),
    ⟨?_, hCp.sublist (List.filter_sublist _)⟩,
    ⟨?_, hOp.sublist (List.filter_sublist _)⟩, ?_⟩
  · intro x hx
    exact hCb x (List.mem_of_mem_filter hx)
  · intro x hx
    exact hOb x (List.mem_of_mem_filter hx)
  · intro o ho
    have ho' := List.mem_filter.mp ho
    have hoc : o.customer ≠ cid := by simpa using ho'.2
    obtain ⟨cw, hcw, hcid⟩ := hRef o ho'.1
    refine ⟨cw, List.mem_filter.mpr ⟨hcw, ?_⟩, hcid⟩
    simp [hcid, hoc]

theorem inv_deleteOrder {db : DB} (oid : Nat) (hInv : Inv db) :
    Inv (deleteOrder db oid) := by
  obtain ⟨hEm, hNum, hC, ⟨hOb, hOp⟩, hRef⟩ := hInv
  refine ⟨hEm, hNum.sublist (List.filter_sublist _), hC,
    ⟨?_, hOp.sublist (List.filter_sublist _)⟩, ?_⟩
  · intro x hx
    exact hOb x (List.mem_of_mem_filter hx)
  · intro o ho
    exact hRef o (List.mem_of_mem_filter ho)

theorem inv_tick {db : DB} (hInv : Inv db) : Inv (tick db) := hInv

/-- Every reachable database state satisfies all the storage-layer
invariants. -/
theorem reachable_inv {db : DB} (h : Reachable db) : Inv db := by
  induction h with
  | init => exact inv_init
  | stepCreateCustomer _ heq ih => exact inv_createCustomer ih heq
  | stepCreateOrder _ heq ih => exact inv_createOrder ih heq
  | stepUpdateCustomer _ heq ih => exact inv_updateCustomer ih heq
  | stepUpdateOrder _ heq ih => exact inv_updateOrder ih heq
  | stepDeleteCustomer _ ih => exact inv_deleteCustomer _ ih
  | stepDeleteOrder _ ih => exact inv_deleteOrder _ ih
  | stepTick _ ih => exact inv_tick ih

theorem reachable_dbA : Reachable dbA :=
  Reachable.stepCreateCustomer Reachable.init
    (show createCustomer initDB "Ada" "Lovelace" "ada@example.com" none none
      = .ok (dbA, cA) from rfl)

theorem reachable_dbB : Reachable dbB :=
  Reachable.stepCreateOrder reachable_dbA
    (show createOrder dbA 1 "ORD-1" = .ok (dbB, oB) from rfl)

/-- C1: deleting a Customer also deletes every Order whose `customer`
reference is that Customer (`on_delete=CASCADE`); afterwards no stored
Order references the deleted Customer, and an Order survives the delete
exactly when it referenced a different Customer. -/
theorem cascade_delete (db : DB) (cid : Nat) :
    (∀ c ∈ (deleteCustomer db cid).customers, c.id ≠ cid) ∧
    (∀ o ∈ (deleteCustomer db cid).orders, o.customer ≠ cid) ∧
    (∀ o : Order, o ∈ (deleteCustomer db cid).orders ↔
      o ∈ db.orders ∧ o.customer ≠ cid) := by
  refine ⟨?_, ?_, ?_⟩
  · intro c hc
    simpa using (List.mem_filter.mp hc).2
  · intro o ho
    simpa using (List.mem_filter.mp ho).2
  · intro o
    simp [deleteCustomer, List.mem_filter]

/-- C7: the display string of a Customer is `first_name`, a single
space, then `last_name`; in particular Ada Lovelace's is
`"Ada Lovelace"`. -/
theorem customer_display (c : Customer) :
    c.toStr = c.first_name ++ " " ++ c.last_name ∧ cA.toStr = "Ada Lovelace" :=
  ⟨rfl, rfl⟩

/-- C8: the display string of an Order is exactly its `order_number`;
in particular the one numbered `"ORD-1"` displays as `"ORD-1"`. -/
theorem order_display (o : Order) :
    o.toStr = o.order_number ∧ oB.toStr = "ORD-1" :=
  ⟨rfl, rfl⟩

/-- C3: inserting a Customer whose `email` is already stored fails with
a uniqueness violation and leaves the stored state unchanged. -/
theorem create_duplicate_email_fails (db : DB) (f l e : String)
    (p a : Option String) (hlen : customerLengthsOk f l p e = true)
    (hdup : ∃ c ∈ db.customers, c.email = e) :
    createCustomer db f l e p a = .error .uniquenessViolation ∧
    createCustomerState db f l e p a = db := by
  have hany : db.customers.any (fun c => c.email = e) = true := by
    simp only [List.any_eq_true, decide_eq_true_eq]
    exact hdup
  have h1 : createCustomer db f l e p a = .error .uniquenessViolation := by
    unfold createCustomer
    rw [if_pos hlen, if_pos hany]
  refine ⟨h1, ?_⟩
  unfold createCustomerState
  rw [h1]

theorem create_duplicate_email_fails_witness :
    createCustomer dbA "Grace" "Hopper" "ada@example.com" none none
      = .error .uniquenessViolation ∧
    createCustomerState dbA "Grace" "Hopper" "ada@example.com" none none = dbA :=
  create_duplicate_email_fails dbA "Grace" "Hopper" "ada@example.com" none none
    (by decide) ⟨cA, by simp [dbA], rfl⟩

/-- C4: inserting an Order whose `order_number` is already stored fails
with a uniqueness violation and leaves the stored state unchanged. -/
theorem create_duplicate_order_number_fails (db : DB) (cid : Nat) (n : String)
    (hlen : n.length ≤ 50) (hcust : ∃ c ∈ db.customers, c.id = cid)
    (hdup : ∃ o ∈ db.orders, o.order_number = n) :
    createOrder db cid n = .error .uniquenessViolation ∧
    createOrderState db cid n = db := by
  have hanyc : db.customers.any (fun c => c.id = cid) = true := by
    simp only [List.any_eq_true, decide_eq_true_eq]
    exact hcust
  have hanyo : db.orders.any (fun o => o.order_number = n) = true := by
    simp only [List.any_eq_true, decide_eq_true_eq]
    exact hdup
  have h1 : createOrder db cid n = .error .uniquenessViolation := by
    unfold createOrder
    rw [if_pos hlen, if_pos hanyc, if_pos hanyo]
  refine ⟨h1, ?_⟩
  unfold createOrderState
  rw [h1]

theorem create_duplicate_order_number_fails_witness :
    createOrder dbB 1 "ORD-1" = .error .uniquenessViolation ∧
    createOrderState dbB 1 "ORD-1" = dbB :=
  create_duplicate_order_number_fails dbB 1 "ORD-1" (by decide)
    ⟨cA, by simp [dbB], rfl⟩ ⟨oB, by simp [dbB], rfl⟩

/-- C5: inserting an Order whose `customer` reference does not identify
a stored Customer fails with a referential-integrity violation and
leaves the stored state unchanged, so an Order is stored only when its
referenced Customer exists at creation time. -/
theorem create_order_missing_customer_fails (db : DB) (cid : Nat) (n : String)
    (hlen : n.length ≤ 50) (hno : ∀ c ∈ db.customers, c.id ≠ cid) :
    createOrder db cid n = .error .referentialIntegrityViolation ∧
    createOrderState db cid n = db := by
  have hany : db.customers.any (fun c => c.id = cid) = false := by
    simp only [List.any_eq_false, decide_eq_true_eq]
    intro c hc
    simpa using hno c hc
  have h1 : createOrder db cid n = .error .referentialIntegrityViolation := by
    unfold createOrder
    rw [if_pos hlen, if_neg (by simp [hany])]
  refine ⟨h1, ?_⟩
  unfold createOrderState
  rw [h1]

theorem create_order_missing_customer_fails_witness :
    createOrder dbA 7 "ORD-9" = .error .referentialIntegrityViolation ∧
    createOrderState dbA 7 "ORD-9" = dbA :=
  create_order_missing_customer_fails dbA 7 "ORD-9" (by decide)
    (by intro c hc; simp [dbA, cA] at hc; simp [hc])

/-- C2: in every reachable database state no two stored Customers share
an `email`, and the insert and update operations preserve this: the
state they leave behind (changed or not) still satisfies it. -/
theorem reachable_emails_unique (db : DB) (h : Reachable db) :
    emailsUnique db ∧
    (∀ f l e p a, emailsUnique (createCustomerState db f l e p a)) ∧
    (∀ cid f l e p a, emailsUnique (updateCustomerState db cid f l e p a)) := by
  have hInv := reachable_inv h
  refine ⟨hInv.1, ?_, ?_⟩
  · intro f l e p a
    unfold createCustomerState
    cases hc : createCustomer db f l e p a with
    | error err => exact hInv.1
    | ok r => exact (inv_createCustomer hInv hc).1
  · intro cid f l e p a
    unfold updateCustomerState
    cases hc : updateCustomer db cid f l e p a with
    | error err => exact hInv.1
    | ok r => exact (inv_updateCustomer hInv hc).1

theorem reachable_emails_unique_witness :
    emailsUnique dbA ∧
    (∀ f l e p a, emailsUnique (createCustomerState dbA f l e p a)) ∧
    (∀ cid f l e p a, emailsUnique (updateCustomerState dbA cid f l e p a)) :=
  reachable_emails_unique dbA reachable_dbA

/-- C9: in every reachable database state every stored Order references
exactly one stored Customer, and the `orders` reverse accessor of a
Customer id holds exactly the stored Orders referencing it. -/
theorem reachable_orders_relation (db : DB) (h : Reachable db) :
    (∀ o ∈ db.orders, ∃ c, c ∈ db.customers ∧ c.id = o.customer ∧
      ∀ c' ∈ db.customers, c'.id = o.customer → c' = c) ∧
    (∀ cid : Nat, ∀ o : Order,
      o ∈ db.ordersOf cid ↔ o ∈ db.orders ∧ o.customer = cid) := by
  obtain ⟨-, -, ⟨-, hCp⟩, -, hRef⟩ := reachable_inv h
  constructor
  · intro o ho
    obtain ⟨c, hc, hcid⟩ := hRef o ho
    refine ⟨c, hc, hcid, ?_⟩
    intro c' hc' hcid'
    by_contra hne
    exact hCp.forall (fun x y hxy => hxy.symm) hc' hc hne
      (hcid'.trans hcid.symm)
  · intro cid o
    simp [DB.ordersOf, List.mem_filter]

theorem reachable_orders_relation_witness :
    (∀ o ∈ dbB.orders, ∃ c, c ∈ dbB.customers ∧ c.id = o.customer ∧
      ∀ c' ∈ dbB.customers, c'.id = o.customer → c' = c) ∧
    (∀ cid : Nat, ∀ o : Order,
      o ∈ dbB.ordersOf cid ↔ o ∈ dbB.orders ∧ o.customer = cid) :=
  reachable_orders_relation dbB reachable_dbB

/-- C6: `date_joined` / `created_at` are auto-populated from the clock
at insertion (`auto_now_add=True`), and a field-by-field update of a
stored row leaves every stored timestamp unchanged. -/
theorem auto_timestamps (db db₁ db₂ db₃ db₄ : DB) (f l e f' l' e' : String)
    (p a p' a' : Option String) (c : Customer) (o : Order)
    (cid oid cid' cid'' : Nat) (n n' : String) :
    (createCustomer db f l e p a = .ok (db₁, c) → c.date_joined = db.now) ∧
    (createOrder db cid n = .ok (db₂, o) → o.created_at = db.now) ∧
    (updateCustomer db cid' f' l' e' p' a' = .ok db₃ →
      db₃.customers.map Customer.date_joined
        = db.customers.map Customer.date_joined) ∧
    (updateOrder db oid cid'' n' = .ok db₄ →
      db₄.orders.map Order.created_at = db.orders.map Order.created_at) := by
  refine ⟨?_, ?_, ?_, ?_⟩
  · intro h
    unfold createCustomer at h
    split at h
    · split at h
      · exact absurd h (by simp)
      · simp only [Except.ok.injEq, Prod.mk.injEq] at h
        obtain ⟨rfl, rfl⟩ := h.symm.imp Eq.symm Eq.symm
        rfl
    · exact absurd h (by simp)
  · intro h
    unfold createOrder at h
    split at h
    · split at h
      · split at h
        · exact absurd h (by simp)
        · simp only [Except.ok.injEq, Prod.mk.injEq] at h
          obtain ⟨rfl, rfl⟩ := h.symm.imp Eq.symm Eq.symm
          rfl
      · exact absurd h (by simp)
    · exact absurd h (by simp)
  · intro h
    unfold updateCustomer at h
    split at h
    · split at h
      · exact absurd h (by simp)
      · simp only [Except.ok.injEq] at h
        subst h
        rw [List.map_map]
        refine List.map_congr_left ?_
        intro x hx
        by_cases hc : x.id = cid' <;> simp [hc]
    · exact absurd h (by simp)
  · intro h
    unfold updateOrder at h
    split at h
    · split at h
      · split at h
        · exact absurd h (by simp)
        · simp only [Except.ok.injEq] at h
          subst h
          rw [List.map_map]
          refine List.map_congr_left ?_
          intro x hx
          by_cases hc : x.id = oid <;> simp [hc]
      · exact absurd h (by simp)
    · exact absurd h (by simp)

theorem auto_timestamps_witness :
    cG.date_joined = dbB.now ∧ oD.created_at = dbB.now ∧
    dbE.customers.map Customer.date_joined
      = dbB.customers.map Customer.date_joined ∧
    dbF.orders.map Order.created_at = dbB.orders.map Order.created_at := by
  have h := auto_timestamps dbB dbC dbD dbE dbF "Grace" "Hopper"
    "grace@example.com" "Ada" "King" "ada@example.com" none none none none
    cG oD 1 1 1 1 "ORD-2" "ORD-2"
  exact ⟨h.1 rfl, h.2.1 rfl, h.2.2.1 rfl, h.2.2.2 rfl⟩

theorem customerLengthsOk_spec {f l e : String} {p : Option String}
    (h : customerLengthsOk f l p e = true) :
    f.length ≤ 100 ∧ l.length ≤ 100 ∧ (∀ s, p = some s → s.length ≤ 20) ∧
      e.length ≤ 254 := by
  simp only [customerLengthsOk, Bool.and_eq_true, decide_eq_true_eq] at h
  refine ⟨h.1.1.1, h.1.1.2, ?_, h.2⟩
  intro s hs
  subst hs
  simpa [phoneLenOk] using h.1.2

theorem customerLengthsOk_violated {f l e : String} {p : Option String}
    (h : 100 < f.length ∨ 100 < l.length ∨ ∃ s, p = some s ∧ 20 < s.length) :
    customerLengthsOk f l p e = false := by
  rcases Bool.eq_false_or_eq_true (customerLengthsOk f l p e) with hc | hc
  · obtain ⟨h1, h2, h3, -⟩ := customerLengthsOk_spec hc
    rcases h with hf | hl | ⟨s, hs, hss⟩
    · omega
    · omega
    · have := h3 s hs
      omega
  · exact hc

/-- C10: the declared `max_length` bounds (100 for `first_name` and
`last_name`, 20 for `phone_number`, 50 for `order_number`): an insert or
update supplying a longer value is rejected by the storage layer and the
stored state is unchanged, never stored truncated. -/
theorem declared_length_limits (db : DB) (f l e n : String) (p a : Option String)
    (cid oid cid' : Nat)
    (hcviol : 100 < f.length ∨ 100 < l.length ∨ ∃ s, p = some s ∧ 20 < s.length)
    (hnviol : 50 < n.length) :
    createCustomer db f l e p a = .error .valueTooLong ∧
    createCustomerState db f l e p a = db ∧
    updateCustomer db cid f l e p a = .error .valueTooLong ∧
    updateCustomerState db cid f l e p a = db ∧
    createOrder db cid' n = .error .valueTooLong ∧
    createOrderState db cid' n = db ∧
    updateOrder db oid cid' n = .error .valueTooLong ∧
    updateOrderState db oid cid' n = db := by
  have hlen := customerLengthsOk_violated (e := e) hcviol
  have h1 : createCustomer db f l e p a = .error .valueTooLong := by
    unfold createCustomer
    rw [if_neg (by simp [hlen])]
  have h2 : updateCustomer db cid f l e p a = .error .valueTooLong := by
    unfold updateCustomer
    rw [if_neg (by simp [hlen])]
  have h3 : createOrder db cid' n = .error .valueTooLong := by
    unfold createOrder
    rw [if_neg (by omega)]
  have h4 : updateOrder db oid cid' n = .error .valueTooLong := by
    unfold updateOrder
    rw [if_neg (by omega)]
  refine ⟨h1, ?_, h2, ?_, h3, ?_, h4, ?_⟩
  · unfold createCustomerState
    rw [h1]
  · unfold updateCustomerState
    rw [h2]
  · unfold createOrderState
    rw [h3]
  · unfold updateOrderState
    rw [h4]

theorem declared_length_limits_witness :
    createCustomer dbA (longStr 101) "Lovelace" "x@example.com" none none
      = .error .valueTooLong ∧
    createCustomerState dbA (longStr 101) "Lovelace" "x@example.com" none none
      = dbA ∧
    updateCustomer dbA 1 (longStr 101) "Lovelace" "x@example.com" none none
      = .error .valueTooLong ∧
    updateCustomerState dbA 1 (longStr 101) "Lovelace" "x@example.com" none none
      = dbA ∧
    createOrder dbA 1 (longStr 51) = .error .valueTooLong ∧
    createOrderState dbA 1 (longStr 51) = dbA ∧
    updateOrder dbA 1 1 (longStr 51) = .error .valueTooLong ∧
    updateOrderState dbA 1 1 (longStr 51) = dbA :=
  declared_length_limits dbA (longStr 101) "Lovelace" "x@example.com"
    (longStr 51) none none 1 1 1
    (Or.inl (by simp [longStr, String.length]))
    (by simp [longStr, String.length])

end DjangoORM
